import Mathlib

/-!
Shallow embedding of the Cline JupyterLab extension's core logic.

The embedding covers:
* the task/message data model and the `ClineCore` controller
  (`src/unnamed/part_003`, class `ClineCore`);
* the JupyterLab adapter operations `analyzeCurrentNotebook`,
  `explainSelectedCell`, `optimizeSelectedCode`
  (`src/unnamed/part_002`, class `ClineJupyterLabAdapter`);
* the host provider's `getActiveDocument`
  (`src/jupyterlab-extension/src/host-integration.ts`,
  class `JupyterLabHostProvider`).

Modelling conventions:
* JavaScript `Date` values and `Date.now()` readings are natural numbers
  (millisecond timestamps).  Each mutating controller call receives the
  clock value(s) it reads as explicit arguments: `startNewTask` performs
  all of its `Date` reads while building one object literal, so it gets a
  single reading; `sendMessage` reads the clock once while building and
  appending the user message (source lines 94-103) and once while building
  the assistant message (source lines 113-118), so it gets two readings.
* JavaScript exceptions become `Except`; a thrown-and-uncaught error is an
  `Except.error` result, and a `try`/`catch` that logs the error is a
  function that returns the caught error alongside the state instead of
  propagating it.
* JavaScript string truthiness (`s ? a : b`, `x || y`) is modelled
  explicitly: `undefined`/`null` and the empty string are falsy.
* `string.split(' ')` in JavaScript splits at every single space
  character, keeping empty fields; it is embedded as
  `String.split · (· == ' ')`, which has exactly those semantics.
-/

/-! ## Data model (`src/unnamed/part_003`, interfaces) -/

/-- `ClineMessage.type`: `'user' | 'assistant' | 'system' | 'tool'`. -/
inductive MessageType where
  | user
  | assistant
  | system
  | tool
deriving DecidableEq, Repr

/-- `ClineTask.status`: `'active' | 'completed' | 'failed'`. -/
inductive TaskStatus where
  | active
  | completed
  | failed
deriving DecidableEq, Repr

/-- The only shape ever stored in `ClineMessage.metadata`: the object
literal `{ images }` built in `sendMessage`. -/
structure MessageMetadata where
  images : List String
deriving DecidableEq, Repr

/-- Interface `ClineMessage`.  `timestamp : Date` is a clock reading. -/
structure ClineMessage where
  id : String
  type : MessageType
  content : String
  timestamp : Nat
  metadata : Option MessageMetadata
deriving DecidableEq, Repr

/-- Interface `ClineTask`. -/
structure ClineTask where
  id : String
  title : String
  messages : List ClineMessage
  status : TaskStatus
  createdAt : Nat
  updatedAt : Nat
deriving DecidableEq, Repr

/-- `ClineConfig.apiProvider`: `'openai' | 'anthropic' | 'openrouter' | 'local'`. -/
inductive ApiProvider where
  | openai
  | anthropic
  | openrouter
  | local
deriving DecidableEq, Repr

/-- Interface `ClineConfig` (the `temperature` float is modelled as a
rational number; no claim depends on its arithmetic). -/
structure ClineConfig where
  apiProvider : ApiProvider
  apiKey : Option String
  apiUrl : Option String
  model : String
  maxTokens : Option Nat
  temperature : Option Rat
deriving DecidableEq, Repr

/-- `Partial<ClineConfig>` as used by `updateConfig`: every field may be
absent. -/
structure PartialClineConfig where
  apiProvider : Option ApiProvider
  apiKey : Option (Option String)
  apiUrl : Option (Option String)
  model : Option String
  maxTokens : Option (Option Nat)
  temperature : Option (Option Rat)
deriving DecidableEq, Repr

/-- The error thrown by `sendMessage`:
`throw new Error('No active task. Start a new task first.')`. -/
inductive ClineError where
  | noActiveTask (message : String)
deriving DecidableEq, Repr

/-- The mutable fields of class `ClineCore`.  In the source,
`currentTask` aliases an element of `tasks`; the embedding represents the
alias as an index into `tasks`, so that a mutation through `currentTask`
is visible in the list, exactly as for the shared JavaScript object. -/
structure ClineCoreState where
  config : ClineConfig
  currentTask : Option Nat
  tasks : List ClineTask
deriving DecidableEq, Repr

/-! ## Controller operations (`src/unnamed/part_003`, class `ClineCore`) -/

/-- JavaScript truthiness of an optional string: `undefined` and `""` are
falsy. -/
def jsStrTruthy : Option String → Bool
  | none => false
  | some s => s != ""

/-- `ClineCore.generateTaskTitle`:
`const words = message.split(' ').slice(0, 6);`
`return words.join(' ') + (message.split(' ').length > 6 ? '...' : '');`
(JavaScript `split(' ')` splits at each space character, keeping empty
fields.) -/
def generateTaskTitle (message : String) : String :=
  let words := (message.split (· == ' ')).take 6
  String.intercalate " " words ++
    (if 6 < (message.split (· == ' ')).length then "..." else "")

/-- The constructor: `new ClineCore(config)` starts with
`currentTask = null` and `tasks = []`. -/
def initState (config : ClineConfig) : ClineCoreState :=
  { config := config, currentTask := none, tasks := [] }

/-- `ClineCore.startNewTask(initialMessage?)` at clock reading `t`.
Builds the task literal (id `` `task-${Date.now()}` ``, title from the
truthiness of `initialMessage`, empty messages, status `'active'`), pushes
a user message with id `` `msg-${Date.now()}` `` when `initialMessage` is
truthy, sets the task current, appends it to `tasks`, and returns it. -/
def startNewTask (s : ClineCoreState) (initialMessage : Option String)
    (t : Nat) : ClineCoreState × ClineTask :=
  let base : ClineTask :=
    { id := "task-" ++ Nat.repr t
      title :=
        if jsStrTruthy initialMessage then
          generateTaskTitle (initialMessage.getD "")
        else "New Task"
      messages := []
      status := .active
      createdAt := t
      updatedAt := t }
  let task : ClineTask :=
    if jsStrTruthy initialMessage then
      { base with
          messages := [{ id := "msg-" ++ Nat.repr t
                         type := .user
                         content := initialMessage.getD ""
                         timestamp := t
                         metadata := none }] }
    else base
  ({ s with currentTask := some s.tasks.length, tasks := s.tasks ++ [task] },
   task)

/-- The canned assistant reply built in `sendMessage`. -/
def assistantReply (content : String) : String :=
  "I received your message: \"" ++ content ++
    "\". This is a placeholder response. The full implementation would process this through the Cline core logic."

/-- The user-message object literal built in `sendMessage` (source lines
94-100), at clock reading `t1`.  The `metadata` field is
`images ? { images } : undefined` (arrays, even empty ones, are
truthy). -/
def mkUserMessage (content : String) (images : Option (List String))
    (t1 : Nat) : ClineMessage :=
  { id := "msg-" ++ Nat.repr t1
    type := .user
    content := content
    timestamp := t1
    metadata := images.map (fun imgs => { images := imgs }) }

/-- The assistant-message object literal built in `sendMessage` (source
lines 113-118), at clock reading `t2`; its id splices `Date.now() + 1`. -/
def mkAssistantMessage (content : String) (t2 : Nat) : ClineMessage :=
  { id := "msg-" ++ Nat.repr (t2 + 1)
    type := .assistant
    content := assistantReply content
    timestamp := t2
    metadata := none }

/-- The state of the current task after a successful `sendMessage`: the
user message is pushed and `updatedAt` refreshed (lines 102-103), then
the assistant message is pushed (line 120) with no further refresh. -/
def taskAfterSend (task : ClineTask) (content : String)
    (images : Option (List String)) (t1 t2 : Nat) : ClineTask :=
  let afterUser : ClineTask :=
    { task with messages := task.messages ++ [mkUserMessage content images t1]
                updatedAt := t1 }
  { afterUser with
      messages := afterUser.messages ++ [mkAssistantMessage content t2] }

/-- `ClineCore.sendMessage(content, images?)`.  `t1` is the clock reading
of the user-message phase (source lines 94-103) and `t2` that of the
assistant-message phase (lines 113-118).  With no current task it throws
before any mutation. -/
def sendMessage (s : ClineCoreState) (content : String)
    (images : Option (List String)) (t1 t2 : Nat) :
    Except ClineError (ClineCoreState × ClineMessage) :=
  match s.currentTask with
  | none => .error (.noActiveTask "No active task. Start a new task first.")
  | some i =>
    match s.tasks.get? i with
    | none => .error (.noActiveTask "No active task. Start a new task first.")
    | some task =>
      .ok ({ s with tasks := s.tasks.set i (taskAfterSend task content images t1 t2) },
        mkAssistantMessage content t2)

/-- `ClineCore.getCurrentTask()`: the task aliased by `currentTask`. -/
def getCurrentTask (s : ClineCoreState) : Option ClineTask :=
  match s.currentTask with
  | none => none
  | some i => s.tasks.get? i

/-- `ClineCore.getTasks()` returns `[...this.tasks]`; in the pure model
the copy is the same list. -/
def getTasks (s : ClineCoreState) : List ClineTask :=
  s.tasks

/-- `ClineCore.updateConfig(newConfig)`: shallow spread merge
`{ ...this.config, ...newConfig }`. -/
def updateConfig (s : ClineCoreState) (p : PartialClineConfig) :
    ClineCoreState :=
  { s with config :=
      { apiProvider := p.apiProvider.getD s.config.apiProvider
        apiKey := p.apiKey.getD s.config.apiKey
        apiUrl := p.apiUrl.getD s.config.apiUrl
        model := p.model.getD s.config.model
        maxTokens := p.maxTokens.getD s.config.maxTokens
        temperature := p.temperature.getD s.config.temperature } }

/-! ## Operation traces over one controller instance -/

/-- One mutating controller call, tagged with the clock reading(s) it
performs. -/
inductive Op where
  | startNewTask (initialMessage : Option String) (t : Nat)
  | sendMessage (content : String) (images : Option (List String))
      (t1 t2 : Nat)
  | updateConfig (p : PartialClineConfig)
deriving DecidableEq, Repr

/-- Execute one call, keeping only the state.  A thrown `sendMessage`
leaves the state as it was (the source throws before any mutation). -/
def step (s : ClineCoreState) : Op → ClineCoreState
  | .startNewTask m t => (startNewTask s m t).1
  | .sendMessage c img t1 t2 =>
    match sendMessage s c img t1 t2 with
    | .ok (s', _) => s'
    | .error _ => s
  | .updateConfig p => updateConfig s p

/-- Run a trace of calls on a freshly constructed controller. -/
def run (config : ClineConfig) (ops : List Op) : ClineCoreState :=
  ops.foldl step (initState config)

/-- A fixed configuration for concrete scenarios (the one used by the
repository's tests). -/
def cfg0 : ClineConfig :=
  { apiProvider := .openai, apiKey := none, apiUrl := none
    model := "gpt-4", maxTokens := some 2000, temperature := none }

/-! ## JupyterLab adapter (`src/unnamed/part_002`,
class `ClineJupyterLabAdapter`)

The adapter subclasses `ClineCore`, so its operations act on the same
controller state.  The pieces of the JupyterLab API it dereferences
(`shell?.currentWidget`, `content?.activeCell`,
`editor?.getSelectedText()`) are modelled as an environment record of
optional values. -/

/-- The selected cell inside a notebook widget:
`cell.source` feeds `explainCode`, and `cell.editor?.getSelectedText()`
(absent when there is no editor) feeds `getSelectedCode`. -/
structure AdapterCell where
  source : String
  selectedText : Option String
deriving DecidableEq, Repr

/-- `notebook?.content?.activeCell`, collapsed to the one optional field
the adapter reads. -/
structure AdapterNotebook where
  activeCell : Option AdapterCell
deriving DecidableEq, Repr

/-- The JupyterLab API surface the adapter operations read:
`this.jupyterLabAPI.shell?.currentWidget`. -/
structure AdapterEnv where
  currentWidget : Option AdapterNotebook
deriving DecidableEq, Repr

/-- Errors arising inside the adapter operations: the
`throw new Error(...)` for missing context, or an error thrown by the
inherited `sendMessage`. -/
inductive AdapterError where
  | missingContext (message : String)
  | fromController (e : ClineError)
deriving DecidableEq, Repr

/-- `ClineJupyterLabAdapter.getCurrentNotebook()`:
`return this.jupyterLabAPI.shell?.currentWidget;`. -/
def getCurrentNotebook (env : AdapterEnv) : Option AdapterNotebook :=
  env.currentWidget

/-- `ClineJupyterLabAdapter.getSelectedCell()`:
`return notebook?.content?.activeCell;`. -/
def getSelectedCell (env : AdapterEnv) : Option AdapterCell :=
  (getCurrentNotebook env).bind (fun nb => nb.activeCell)

/-- `ClineJupyterLabAdapter.getSelectedCode()`:
`return cell?.editor?.getSelectedText() || null;` — an absent editor and
an empty selection both yield `null`. -/
def getSelectedCode (env : AdapterEnv) : Option String :=
  match (getSelectedCell env).bind (fun c => c.selectedText) with
  | none => none
  | some sel => if sel == "" then none else some sel

/-- `analyzeNotebookStructure` returns a hard-coded placeholder. -/
def analyzeNotebookStructure (_nb : AdapterNotebook) : String :=
  "Notebook analysis: The notebook contains code cells with data processing logic. Consider adding documentation and error handling."

/-- `explainCode(code)`:
`` `This code performs: ${code.length > 100 ? 'complex operations' : 'basic operations'}. ${code.slice(0, 100)}...` ``. -/
def explainCode (code : String) : String :=
  "This code performs: " ++
    (if 100 < code.length then "complex operations" else "basic operations") ++
    ". " ++ code.take 100 ++ "..."

/-- `optimizeCode(code)` wraps the code in a placeholder banner. -/
def optimizeCode (code : String) : String :=
  "# Optimized version\n" ++ code ++ "\n# TODO: Add actual optimization logic"

/-- `ClineJupyterLabAdapter.analyzeCurrentNotebook()`.  The whole body is
wrapped in `try { ... } catch (error) { console.error(...) }`, so the
method always completes normally; the second component of the result is
the error that was caught and logged to the console (`none` when the body
succeeded).  When the notebook is absent the controller is never
reached. -/
def analyzeCurrentNotebook (s : ClineCoreState) (env : AdapterEnv)
    (t1 t2 : Nat) : ClineCoreState × Option AdapterError :=
  match getCurrentNotebook env with
  | none => (s, some (.missingContext "No active notebook found"))
  | some notebook =>
    let analysis := analyzeNotebookStructure notebook
    match sendMessage s
        ("I've analyzed your notebook. Here's what I found:\n\n" ++ analysis)
        none t1 t2 with
    | .ok (s', _) => (s', none)
    | .error e => (s, some (.fromController e))

/-- `ClineJupyterLabAdapter.explainSelectedCell()`, same
`try`/`catch`-and-log shape as `analyzeCurrentNotebook`. -/
def explainSelectedCell (s : ClineCoreState) (env : AdapterEnv)
    (t1 t2 : Nat) : ClineCoreState × Option AdapterError :=
  match getSelectedCell env with
  | none => (s, some (.missingContext "No cell selected"))
  | some cell =>
    let explanation := explainCode cell.source
    match sendMessage s
        ("Here's an explanation of the selected cell:\n\n" ++ explanation)
        none t1 t2 with
    | .ok (s', _) => (s', none)
    | .error e => (s, some (.fromController e))

/-- `ClineJupyterLabAdapter.optimizeSelectedCode()`, same
`try`/`catch`-and-log shape as `analyzeCurrentNotebook`. -/
def optimizeSelectedCode (s : ClineCoreState) (env : AdapterEnv)
    (t1 t2 : Nat) : ClineCoreState × Option AdapterError :=
  match getSelectedCode env with
  | none => (s, some (.missingContext "No code selected"))
  | some selection =>
    let optimized := optimizeCode selection
    match sendMessage s
        ("Here's the optimized version of your code:\n\n```python\n" ++
          optimized ++ "\n```")
        none t1 t2 with
    | .ok (s', _) => (s', none)
    | .error e => (s, some (.fromController e))

/-! ## Host provider (`src/jupyterlab-extension/src/host-integration.ts`,
`JupyterLabHostProvider.getActiveDocument`) -/

/-- `cell.type` of a notebook cell; the source only tests
`cell.type === 'code'`. -/
inductive HostCellKind where
  | code
  | markdown
  | raw
deriving DecidableEq, Repr

/-- A notebook cell as read by `getActiveDocument`: `cell.type`,
`cell.value.text`, and `cell.metadata.get('language')` (absent when the
metadata key is missing). -/
structure HostCell where
  kind : HostCellKind
  text : String
  language : Option String
deriving DecidableEq, Repr

/-- What `getActiveDocument` finds behind `currentWidget.content`:
a notebook model (`content.model.type === 'notebook'`), a file editor
model with a truthy `content.model.value`, or anything else. -/
inductive HostWidgetContent where
  | notebook (cells : List HostCell)
  | fileValue (text : String)
  | other
deriving DecidableEq, Repr

/-- The active widget: its content plus `currentWidget.context?.path`. -/
structure HostWidget where
  content : HostWidgetContent
  path : Option String
deriving DecidableEq, Repr

/-- The record `{ path, content, language }` returned by
`getActiveDocument`. -/
structure ActiveDocument where
  path : String
  content : String
  language : String
deriving DecidableEq, Repr

/-- JavaScript `p || dflt` on an optional string path: `undefined` and
`""` fall back to the default. -/
def jsPathOr (p : Option String) (dflt : String) : String :=
  match p with
  | none => dflt
  | some s => if s == "" then dflt else s

/-- One step of the language update inside the notebook loop:
`if (language === 'python' && cell.metadata.get('language'))`
`{ language = cell.metadata.get('language') as string; }` — the guard has
already checked `language === 'python'`; a missing or empty (falsy)
declaration leaves `language` unchanged. -/
def jsLangOverride (language : String) : Option String → String
  | none => language
  | some l => if l == "" then language else l

/-- The `for` loop of the notebook branch: `i` is the loop index over all
cells, `content` and `language` the two mutable accumulators. -/
def notebookFold : List HostCell → Nat → String → String → String × String
  | [], _, content, language => (content, language)
  | c :: cs, i, content, language =>
    if c.kind = .code then
      notebookFold cs (i + 1)
        (content ++ "# Cell " ++ Nat.repr (i + 1) ++ "\n" ++ c.text ++ "\n\n")
        (if language == "python" then jsLangOverride language c.language
         else language)
    else
      notebookFold cs (i + 1) content language

/-- The extension-to-language table in the regular-file branch. -/
def languageMap : String → Option String
  | "py" => some "python"
  | "js" => some "javascript"
  | "ts" => some "typescript"
  | "md" => some "markdown"
  | "json" => some "json"
  | "yaml" => some "yaml"
  | "yml" => some "yaml"
  | _ => none

/-- `path.split('.').pop() || ''` of the regular-file branch.
(`String.splitOn "."` matches JavaScript `split('.')`, and `pop()` of the
always-nonempty result is its last element.) -/
def fileExtension (path : String) : String :=
  match (path.splitOn ".").getLast? with
  | none => ""
  | some e => e

/-- `JupyterLabHostProvider.getActiveDocument()`:
`null` when `shell?.currentWidget` is absent; the notebook branch
concatenates code cells with `` `# Cell ${i + 1}` `` markers and scans for
a language declaration starting from the `'python'` default; the
regular-file branch maps the file extension through `languageMap`;
any other widget yields `null`. -/
def getActiveDocument (currentWidget : Option HostWidget) :
    Option ActiveDocument :=
  match currentWidget with
  | none => none
  | some w =>
    match w.content with
    | .notebook cells =>
      let folded := notebookFold cells 0 "" "python"
      some { path := jsPathOr w.path "untitled.ipynb"
             content := folded.1
             language := folded.2 }
    | .fileValue text =>
      let path := jsPathOr w.path "untitled"
      some { path := path
             content := text
             language := (languageMap (fileExtension path)).getD "text" }
    | .other => none

/-! ## String lemmas: `split (· == ' ')` undoes `intercalate " "`

These connect the title computation to the word list it is built from:
joining space-free words with single spaces and splitting again gives the
words back.  They go through the Batteries list model of `String.split`
and Mathlib's `List.splitOn_intercalate`. -/

theorem intercalateGo_data (s : String) (as : List String) :
    ∀ acc : String,
      (String.intercalate.go acc s as).data =
        acc.data ++ as.flatMap (fun x => s.data ++ x.data) := by
  induction as with
  | nil => intro acc; simp [String.intercalate.go]
  | cons a as ih =>
    intro acc
    simp [String.intercalate.go, ih, List.append_assoc]

theorem listIntercalateChar (sep : List Char) :
    ∀ (t : List (List Char)) (a : List Char),
      List.intercalate sep (a :: t) = a ++ t.flatMap (fun x => sep ++ x) := by
  intro t
  induction t with
  | nil => intro a; simp [List.intercalate]
  | cons b t ih =>
    intro a
    have hb := ih b
    simp only [List.intercalate, List.intersperse_cons_cons, List.flatten_cons]
      at hb ⊢
    simp [hb, List.append_assoc]

theorem strIntercalate_data (ws : List String) :
    (String.intercalate " " ws).data =
      List.intercalate [' '] (ws.map String.data) := by
  cases ws with
  | nil => rfl
  | cons w ws =>
    simp only [String.intercalate, intercalateGo_data, List.map_cons,
      listIntercalateChar]
    congr 1
    simp [List.flatMap_map]

theorem stringMk_data (s : String) : String.mk s.data = s := rfl

theorem split_space_intercalate (ws : List String)
    (h : ∀ w ∈ ws, ¬ ' ' ∈ w.data) (hne : ws ≠ []) :
    (String.intercalate " " ws).split (· == ' ') = ws := by
  rw [String.split_of_valid]
  show (List.splitOnP (· == ' ') (String.intercalate " " ws).data).map
    String.mk = ws
  rw [strIntercalate_data]
  have hsplit :
      (List.intercalate [' '] (ws.map String.data)).splitOn ' ' =
        ws.map String.data :=
    List.splitOn_intercalate (ws.map String.data) ' '
      (by intro l hl
          rcases List.mem_map.mp hl with ⟨w, hw, rfl⟩
          exact h w hw)
      (by simpa using hne)
  have : List.splitOnP (· == ' ')
      (List.intercalate [' '] (ws.map String.data)) = ws.map String.data :=
    hsplit
  rw [this, List.map_map]
  simp [Function.comp_def, stringMk_data]

/-! ## Decimal representation lemmas

The controller builds ids by splicing `Date.now()` into template strings
(`` `task-${Date.now()}` ``, `` `msg-${Date.now()}` ``).  To compare such
ids we need that the decimal rendering of a natural number is injective;
we prove it by evaluating the rendered digits back to the number. -/

/-- Fold one decimal digit onto an accumulator. -/
def digitStep (acc : Nat) (c : Char) : Nat :=
  10 * acc + (c.toNat - 48)

theorem digitStep_digitChar {m : Nat} (hm : m < 10) (acc : Nat) :
    digitStep acc (Nat.digitChar m) = 10 * acc + m := by
  have : ∀ m', m' < 10 → (Nat.digitChar m').toNat - 48 = m' := by decide
  simp [digitStep, this m hm]

theorem toDigitsCore_foldl (fuel : Nat) :
    ∀ (n : Nat) (ds : List Char), n < fuel →
      (Nat.toDigitsCore 10 fuel n ds).foldl digitStep 0 =
        ds.foldl digitStep n := by
  induction fuel with
  | zero => intro n ds h; exact absurd h (Nat.not_lt_zero n)
  | succ fuel ih =>
    intro n ds h
    simp only [Nat.toDigitsCore]
    by_cases hz : n / 10 = 0
    · have hn : n < 10 := by
        by_contra hge
        have h10 : 10 ≤ n := Nat.le_of_not_lt hge
        have : 1 ≤ n / 10 := (Nat.le_div_iff_mul_le (by decide)).mpr (by omega)
        omega
      have hstep : digitStep 0 (Nat.digitChar (n % 10)) = n := by
        rw [digitStep_digitChar (Nat.mod_lt n (by decide))]
        simp [Nat.mod_eq_of_lt hn]
      simp only [hz, if_true]
      simp [List.foldl_cons, hstep]
    · have hpos : 0 < n := by
        rcases Nat.eq_zero_or_pos n with h0 | h0
        · subst h0; simp at hz
        · exact h0
      have hlt : n / 10 < fuel :=
        Nat.lt_of_lt_of_le (Nat.div_lt_self hpos (by decide))
          (Nat.le_of_lt_succ h)
      simp only [hz, if_false]
      rw [ih (n / 10) (Nat.digitChar (n % 10) :: ds) hlt]
      simp [List.foldl_cons, digitStep_digitChar (Nat.mod_lt n (by decide)),
        Nat.div_add_mod]

theorem foldl_toDigits (n : Nat) :
    (Nat.toDigits 10 n).foldl digitStep 0 = n := by
  rw [Nat.toDigits, toDigitsCore_foldl (n + 1) n [] (Nat.lt_succ_self n)]
  rfl

theorem natRepr_injective : Function.Injective Nat.repr := by
  intro a b h
  have hdig : Nat.toDigits 10 a = Nat.toDigits 10 b := congrArg String.data h
  calc a = (Nat.toDigits 10 a).foldl digitStep 0 := (foldl_toDigits a).symm
    _ = (Nat.toDigits 10 b).foldl digitStep 0 := by rw [hdig]
    _ = b := foldl_toDigits b

theorem msgId_inj {a b : Nat}
    (h : "msg-" ++ Nat.repr a = "msg-" ++ Nat.repr b) : a = b := by
  have hd := congrArg String.data h
  simp only [String.data_append] at hd
  exact natRepr_injective (congrArg String.mk
    (List.append_cancel_left hd))

theorem taskId_ne_msgId (a b : Nat) :
    "task-" ++ Nat.repr a ≠ "msg-" ++ Nat.repr b := by
  intro h
  have hd := congrArg String.data h
  have h1 : "task-".data = ['t', 'a', 's', 'k', '-'] := rfl
  have h2 : "msg-".data = ['m', 's', 'g', '-'] := rfl
  simp only [String.data_append, h1, h2] at hd
  exact absurd (List.head_eq_of_cons_eq hd) (by decide)

/-! ## Characterizing the notebook loop of `getActiveDocument` -/

theorem strFoldlAppend_shift (l : List String) :
    ∀ x y : String,
      l.foldl (fun r s => r ++ s) (x ++ y) =
        x ++ l.foldl (fun r s => r ++ s) y := by
  induction l with
  | nil => intro x y; rfl
  | cons a l ih =>
    intro x y
    simp only [List.foldl_cons, String.append_assoc]
    exact ih x (y ++ a)

theorem strJoin_cons (a : String) (l : List String) :
    String.join (a :: l) = a ++ String.join l := by
  show l.foldl (fun r s => r ++ s) ("" ++ a) = a ++ String.join l
  have h1 : ("" : String) ++ a = a ++ "" := by simp
  rw [h1, strFoldlAppend_shift l a ""]
  rfl

/-- The cell marker plus cell body contributed to `content` by the code
cell at display position `i` (zero-based). -/
def cellBlock (i : Nat) (c : HostCell) : String :=
  "# Cell " ++ Nat.repr (i + 1) ++ "\n" ++ c.text ++ "\n\n"

theorem notebookFold_cons_code (c : HostCell) (cs : List HostCell)
    (i : Nat) (content language : String) (hc : c.kind = .code) :
    notebookFold (c :: cs) i content language =
      notebookFold cs (i + 1) (content ++ cellBlock i c)
        (if language == "python" then jsLangOverride language c.language
         else language) := by
  simp [notebookFold, hc, cellBlock, String.append_assoc]

theorem notebookFold_cons_noncode (c : HostCell) (cs : List HostCell)
    (i : Nat) (content language : String) (hc : ¬ c.kind = .code) :
    notebookFold (c :: cs) i content language =
      notebookFold cs (i + 1) content language := by
  simp [notebookFold, hc]

/-- The `content` accumulator of the notebook loop collects exactly the
blocks of the code-bearing cells, in display order. -/
theorem notebookFold_content (cells : List HostCell) :
    ∀ (i : Nat) (content language : String),
      (notebookFold cells i content language).1 =
        content ++ String.join
          (((List.enumFrom i cells).filter fun p => p.2.kind == .code).map
            fun p => cellBlock p.1 p.2) := by
  induction cells with
  | nil =>
    intro i content language
    simp [notebookFold, String.join]
  | cons c cs ih =>
    intro i content language
    by_cases hc : c.kind = .code
    · rw [notebookFold_cons_code c cs i content language hc, ih]
      have hf : (List.enumFrom i (c :: cs)).filter
            (fun p => p.2.kind == HostCellKind.code) =
          (i, c) :: (List.enumFrom (i + 1) cs).filter
            (fun p => p.2.kind == HostCellKind.code) := by
        simp [List.enumFrom_cons, List.filter_cons, hc]
      rw [hf, List.map_cons, strJoin_cons]
      simp [String.append_assoc]
    · rw [notebookFold_cons_noncode c cs i content language hc, ih]
      have hf : (List.enumFrom i (c :: cs)).filter
            (fun p => p.2.kind == HostCellKind.code) =
          (List.enumFrom (i + 1) cs).filter
            (fun p => p.2.kind == HostCellKind.code) := by
        simp [List.enumFrom_cons, List.filter_cons, hc]
      rw [hf]

/-- The language declarations (truthy `metadata.get('language')` values)
of the code cells, in display order. -/
def declaredCellLanguages (cells : List HostCell) : List String :=
  cells.filterMap fun c =>
    if c.kind = .code then
      match c.language with
      | none => none
      | some l => if l == "" then none else some l
    else none

theorem dcl_cons_noncode (c : HostCell) (cs : List HostCell)
    (hc : ¬ c.kind = .code) :
    declaredCellLanguages (c :: cs) = declaredCellLanguages cs := by
  simp [declaredCellLanguages, List.filterMap_cons, hc]

theorem dcl_cons_code_none (c : HostCell) (cs : List HostCell)
    (hc : c.kind = .code) (hl : c.language = none) :
    declaredCellLanguages (c :: cs) = declaredCellLanguages cs := by
  simp [declaredCellLanguages, List.filterMap_cons, hc, hl]

theorem dcl_cons_code_blank (c : HostCell) (cs : List HostCell)
    (hc : c.kind = .code) (hl : c.language = some "") :
    declaredCellLanguages (c :: cs) = declaredCellLanguages cs := by
  simp [declaredCellLanguages, List.filterMap_cons, hc, hl]

theorem dcl_cons_code_some (c : HostCell) (cs : List HostCell) (l : String)
    (hc : c.kind = .code) (hl : c.language = some l)
    (hle : (l == "") = false) :
    declaredCellLanguages (c :: cs) = l :: declaredCellLanguages cs := by
  have hne : l ≠ "" := by simpa using hle
  simp [declaredCellLanguages, List.filterMap_cons, hc, hl, hne]

theorem notebookFold_language_frozen (cells : List HostCell) :
    ∀ (i : Nat) (content language : String), language ≠ "python" →
      (notebookFold cells i content language).2 = language := by
  induction cells with
  | nil => intro i content language _; rfl
  | cons c cs ih =>
    intro i content language hl
    by_cases hc : c.kind = .code
    · rw [notebookFold_cons_code c cs i content language hc,
        if_neg (show ¬ ((language == "python") = true) by simp [hl])]
      exact ih _ _ _ hl
    · rw [notebookFold_cons_noncode c cs i content language hc]
      exact ih _ _ _ hl

/-- The `language` accumulator ends up being the first declared cell
language different from the `'python'` default (a declaration equal to
the default does not stop the scan). -/
theorem notebookFold_language (cells : List HostCell) :
    ∀ (i : Nat) (content : String),
      (notebookFold cells i content "python").2 =
        ((declaredCellLanguages cells).find? fun l => l != "python").getD
          "python" := by
  induction cells with
  | nil => intro i content; rfl
  | cons c cs ih =>
    intro i content
    by_cases hc : c.kind = .code
    · rw [notebookFold_cons_code c cs i content "python" hc]
      cases hl : c.language with
      | none =>
        have hov : (if ("python" : String) == "python" then
            jsLangOverride "python" none else "python") = "python" := by
          decide
        rw [hov, ih, dcl_cons_code_none c cs hc hl]
      | some l =>
        by_cases hle : (l == "") = true
        · have hleq : l = "" := by simpa using hle
          subst hleq
          have hov : (if ("python" : String) == "python" then
              jsLangOverride "python" (some "") else "python") = "python" := by
            decide
          rw [hov, ih, dcl_cons_code_blank c cs hc hl]
        · have hlb : (l == "") = false := by
            simpa using hle
          have hov : (if ("python" : String) == "python" then
              jsLangOverride "python" (some l) else "python") = l := by
            simp [jsLangOverride, hlb]
          rw [hov, dcl_cons_code_some c cs l hc hl hlb]
          by_cases hpy : l = "python"
          · subst hpy
            rw [ih]
            have : List.find? (fun x => x != "python")
                ("python" :: declaredCellLanguages cs) =
                List.find? (fun x => x != "python")
                  (declaredCellLanguages cs) := by
              simp [List.find?]
            rw [this]
          · rw [notebookFold_language_frozen cs _ _ _ hpy]
            have hb : (l == "python") = false := by simpa using hpy
            have : List.find? (fun x => x != "python")
                (l :: declaredCellLanguages cs) = some l := by
              simp [List.find?, bne, hb]
            rw [this]
            rfl
    · rw [notebookFold_cons_noncode c cs i content "python" hc, ih,
        dcl_cons_noncode c cs hc]

/-! ## Clock disciplines over traces

`Date.now()` is nondecreasing within a run, so a trace is *well timed*
when each clock reading is at least the preceding one.  It is *well
separated* when successive readings grow by at least 2 — the slack needed
because the assistant message id uses `Date.now() + 1`. -/

/-- Clock readings of `op` are at least `lo` and internally
nondecreasing. -/
def monoReads (lo : Nat) : Op → Prop
  | .startNewTask _ t => lo ≤ t
  | .sendMessage _ _ t1 t2 => lo ≤ t1 ∧ t1 ≤ t2
  | .updateConfig _ => True

/-- The last clock reading of `op` (or `lo` if it reads no clock). -/
def lastRead (lo : Nat) : Op → Nat
  | .startNewTask _ t => t
  | .sendMessage _ _ _ t2 => t2
  | .updateConfig _ => lo

/-- All clock readings along the trace are nondecreasing, starting from
`lo`. -/
def wellTimed : Nat → List Op → Prop
  | _, [] => True
  | lo, op :: rest => monoReads lo op ∧ wellTimed (lastRead lo op) rest

/-- Clock readings of `op` are at least `lo` and grow by at least 2
within the call. -/
def sepReads (lo : Nat) : Op → Prop
  | .startNewTask _ t => lo ≤ t
  | .sendMessage _ _ t1 t2 => lo ≤ t1 ∧ t1 + 2 ≤ t2
  | .updateConfig _ => True

/-- Strict lower bound for the clock readings of the rest of the trace:
2 beyond the last reading of `op`. -/
def sepNext (lo : Nat) : Op → Nat
  | .startNewTask _ t => t + 2
  | .sendMessage _ _ _ t2 => t2 + 2
  | .updateConfig _ => lo

/-- Successive clock readings along the trace grow by at least 2. -/
def wellSeparated : Nat → List Op → Prop
  | _, [] => True
  | lo, op :: rest => sepReads lo op ∧ wellSeparated (sepNext lo op) rest

/-! ## Time invariant: `createdAt <= updatedAt <= clock` -/

/-- Every task's `createdAt` is at most its `updatedAt`, and all task
times are at most `hi`. -/
def timesBounded (s : ClineCoreState) (hi : Nat) : Prop :=
  ∀ task ∈ s.tasks, task.createdAt ≤ task.updatedAt ∧ task.updatedAt ≤ hi

theorem timesBounded_mono {s : ClineCoreState} {h1 h2 : Nat}
    (hle : h1 ≤ h2) (hb : timesBounded s h1) : timesBounded s h2 :=
  fun task ht => ⟨(hb task ht).1, Nat.le_trans (hb task ht).2 hle⟩

theorem step_timesBounded {s : ClineCoreState} {lo : Nat} {op : Op}
    (hb : timesBounded s lo) (hm : monoReads lo op) :
    timesBounded (step s op) (lastRead lo op) := by
  cases op with
  | startNewTask m t =>
    intro task ht
    simp only [step, startNewTask] at ht
    rcases List.mem_append.mp ht with hmem | hmem
    · exact ⟨(hb task hmem).1, Nat.le_trans (hb task hmem).2 hm⟩
    · rcases List.mem_singleton.mp hmem with rfl
      by_cases hj : jsStrTruthy m <;> simp [hj, lastRead]
  | sendMessage c img t1 t2 =>
    rcases hm with ⟨h1, h2⟩
    cases hcur : s.currentTask with
    | none =>
      simp only [step, sendMessage, hcur, lastRead]
      exact timesBounded_mono (Nat.le_trans h1 h2) hb
    | some i =>
      cases hget : s.tasks.get? i with
      | none =>
        simp only [step, sendMessage, hcur, hget, lastRead]
        exact timesBounded_mono (Nat.le_trans h1 h2) hb
      | some task =>
        simp only [step, sendMessage, hcur, hget, lastRead]
        intro tk htk
        rcases List.mem_or_eq_of_mem_set htk with hmem | rfl
        · exact ⟨(hb tk hmem).1, Nat.le_trans (hb tk hmem).2
            (Nat.le_trans h1 h2)⟩
        · have hmemi : task ∈ s.tasks := List.get?_mem hget
          refine ⟨?_, h2⟩
          exact Nat.le_trans (hb task hmemi).1
            (Nat.le_trans (hb task hmemi).2 h1)
  | updateConfig p =>
    intro task ht
    exact hb task ht

theorem run_timesBounded (ops : List Op) :
    ∀ (s : ClineCoreState) (lo : Nat), timesBounded s lo →
      wellTimed lo ops →
      ∃ hi, timesBounded (ops.foldl step s) hi := by
  induction ops with
  | nil => intro s lo hb _; exact ⟨lo, hb⟩
  | cons op rest ih =>
    intro s lo hb hwt
    exact ih (step s op) (lastRead lo op)
      (step_timesBounded hb hwt.1) hwt.2

/-! ## Identifier invariants -/

/-- All message ids stored anywhere in the controller, in task order. -/
def msgIds (s : ClineCoreState) : List String :=
  s.tasks.flatMap fun t => t.messages.map fun m => m.id

/-- All task ids, in list order. -/
def taskIds (s : ClineCoreState) : List String :=
  s.tasks.map fun t => t.id

theorem flatMapMsgs_set (l : List ClineTask) :
    ∀ (i : Nat) (task task' : ClineTask), l.get? i = some task →
      ∃ A B,
        (l.flatMap fun t => t.messages.map fun m => m.id) =
          A ++ (task.messages.map fun m => m.id) ++ B ∧
        ((l.set i task').flatMap fun t => t.messages.map fun m => m.id) =
          A ++ (task'.messages.map fun m => m.id) ++ B := by
  induction l with
  | nil => intro i task task' h; simp at h
  | cons hd tl ih =>
    intro i task task' h
    cases i with
    | zero =>
      have : hd = task := by simpa using h
      subst this
      exact ⟨[], tl.flatMap fun t => t.messages.map fun m => m.id,
        by simp, by simp⟩
    | succ i =>
      have h' : tl.get? i = some task := by simpa using h
      rcases ih i task task' h' with ⟨A, B, h1, h2⟩
      refine ⟨(hd.messages.map fun m => m.id) ++ A, B, ?_, ?_⟩
      · simp only [List.flatMap_cons, h1, List.append_assoc]
      · simp only [List.set_cons_succ, List.flatMap_cons, h2,
          List.append_assoc]

/-- Every stored message id has the shape `msg-<n>` and every task id the
shape `task-<n>`. -/
def idsShaped (s : ClineCoreState) : Prop :=
  (∀ id ∈ msgIds s, ∃ n, id = "msg-" ++ Nat.repr n) ∧
  (∀ id ∈ taskIds s, ∃ n, id = "task-" ++ Nat.repr n)

theorem startNewTask_task_id (s : ClineCoreState) (m : Option String)
    (t : Nat) : (startNewTask s m t).2.id = "task-" ++ Nat.repr t := by
  by_cases hj : jsStrTruthy m <;> simp [startNewTask, hj]

theorem startNewTask_task_msgIdList (s : ClineCoreState) (m : Option String)
    (t : Nat) :
    ((startNewTask s m t).2.messages.map fun msg => msg.id) =
      if jsStrTruthy m then ["msg-" ++ Nat.repr t] else [] := by
  by_cases hj : jsStrTruthy m <;> simp [startNewTask, hj]

theorem step_startNewTask_msgIds (s : ClineCoreState) (m : Option String)
    (t : Nat) :
    msgIds (step s (.startNewTask m t)) =
      msgIds s ++ if jsStrTruthy m then ["msg-" ++ Nat.repr t] else [] := by
  have := startNewTask_task_msgIdList s m t
  simp only [msgIds, step, startNewTask] at this ⊢
  rw [List.flatMap_append]
  simp only [List.flatMap_cons, List.flatMap_nil, List.append_nil]
  rw [this]

theorem step_startNewTask_taskIds (s : ClineCoreState) (m : Option String)
    (t : Nat) :
    taskIds (step s (.startNewTask m t)) =
      taskIds s ++ ["task-" ++ Nat.repr t] := by
  have := startNewTask_task_id s m t
  simp only [taskIds, step, startNewTask] at this ⊢
  rw [List.map_append]
  simp only [List.map_cons, List.map_nil]
  rw [this]

theorem nodup_middle_two (A B : List String) (u a : String)
    (hnd : (A ++ B).Nodup) (hu : ¬ u ∈ A ++ B) (ha : ¬ a ∈ A ++ B)
    (hua : u ≠ a) : (A ++ u :: a :: B).Nodup := by
  have p1 : List.Perm (A ++ u :: (a :: B)) (u :: (A ++ a :: B)) :=
    List.perm_middle
  have p2 : List.Perm (A ++ a :: B) (a :: (A ++ B)) := List.perm_middle
  rw [p1.nodup_iff, List.nodup_cons]
  constructor
  · intro hmem
    rcases List.mem_cons.mp (p2.mem_iff.mp hmem) with h | h
    · exact hua h
    · exact hu h
  · rw [p2.nodup_iff, List.nodup_cons]
    exact ⟨ha, hnd⟩

/-- Message ids are bounded decimal `msg-` ids and pairwise distinct. -/
def msgIdsOk (s : ClineCoreState) (lo : Nat) : Prop :=
  (∀ id ∈ msgIds s, ∃ n, n < lo ∧ id = "msg-" ++ Nat.repr n) ∧
  (msgIds s).Nodup

theorem msgIdsOk_mono {s : ClineCoreState} {lo lo' : Nat} (h : lo ≤ lo') :
    msgIdsOk s lo → msgIdsOk s lo' := by
  rintro ⟨hb, hnd⟩
  refine ⟨fun id hid => ?_, hnd⟩
  rcases hb id hid with ⟨n, hn, he⟩
  exact ⟨n, Nat.lt_of_lt_of_le hn h, he⟩

theorem taskAfterSend_msgIdList (task : ClineTask) (c : String)
    (img : Option (List String)) (t1 t2 : Nat) :
    ((taskAfterSend task c img t1 t2).messages.map fun m => m.id) =
      (task.messages.map fun m => m.id) ++
        ["msg-" ++ Nat.repr t1, "msg-" ++ Nat.repr (t2 + 1)] := by
  simp [taskAfterSend, mkUserMessage, mkAssistantMessage]

theorem step_msgIdsOk {s : ClineCoreState} {lo : Nat} {op : Op}
    (h : msgIdsOk s lo) (hr : sepReads lo op) :
    msgIdsOk (step s op) (sepNext lo op) := by
  cases op with
  | startNewTask m t =>
    obtain ⟨hb, hnd⟩ := h
    have ht : lo ≤ t := hr
    have heq := step_startNewTask_msgIds s m t
    simp only [sepNext]
    constructor
    · intro id hid
      rw [heq] at hid
      rcases List.mem_append.mp hid with hold | hnew
      · rcases hb id hold with ⟨n, hn, he⟩
        exact ⟨n, by omega, he⟩
      · by_cases hj : jsStrTruthy m
        · rw [if_pos hj] at hnew
          rcases List.mem_singleton.mp hnew with rfl
          exact ⟨t, by omega, rfl⟩
        · rw [if_neg hj] at hnew
          exact absurd hnew (List.not_mem_nil id)
    · rw [heq]
      by_cases hj : jsStrTruthy m
      · rw [if_pos hj]
        refine List.Nodup.append hnd (by simp) ?_
        intro id hidold hidnew
        rcases List.mem_singleton.mp hidnew with rfl
        rcases hb _ hidold with ⟨n, hn, he⟩
        exact absurd (msgId_inj he.symm) (by omega)
      · rw [if_neg hj]
        simpa using hnd
  | sendMessage c img t1 t2 =>
    obtain ⟨hl1, hl2⟩ := hr
    simp only [sepNext]
    cases hcur : s.currentTask with
    | none =>
      have hst : step s (.sendMessage c img t1 t2) = s := by
        simp only [step, sendMessage, hcur]
      rw [hst]
      exact msgIdsOk_mono (by omega) h
    | some i =>
      cases hget : s.tasks.get? i with
      | none =>
        have hst : step s (.sendMessage c img t1 t2) = s := by
          simp only [step, sendMessage, hcur, hget]
        rw [hst]
        exact msgIdsOk_mono (by omega) h
      | some task =>
        obtain ⟨hb, hnd⟩ := h
        rcases flatMapMsgs_set s.tasks i task
            (taskAfterSend task c img t1 t2) hget with ⟨A, B, hOld, hNew⟩
        have hstep : msgIds (step s (.sendMessage c img t1 t2)) =
            (s.tasks.set i (taskAfterSend task c img t1 t2)).flatMap
              (fun t => t.messages.map fun m => m.id) := by
          simp only [step, sendMessage, hcur, hget, msgIds]
        rw [taskAfterSend_msgIdList] at hNew
        have hOld' : msgIds s =
            A ++ (task.messages.map fun m => m.id) ++ B := hOld
        set M := task.messages.map fun m => m.id with hM
        have hNew' : msgIds (step s (.sendMessage c img t1 t2)) =
            (A ++ M) ++ ("msg-" ++ Nat.repr t1) ::
              ("msg-" ++ Nat.repr (t2 + 1)) :: B := by
          rw [hstep, hNew]
          simp [List.append_assoc]
        have hOldFlat : msgIds s = (A ++ M) ++ B := by
          rw [hOld']
        have hmemOld : ∀ id, id ∈ (A ++ M) ++ B → id ∈ msgIds s := by
          intro id hid
          rw [hOldFlat]
          exact hid
        constructor
        · intro id hid
          rw [hNew'] at hid
          rcases List.mem_append.mp hid with hAM | hrest
          · rcases hb id (hmemOld id (List.mem_append_left B hAM)) with
              ⟨n, hn, he⟩
            exact ⟨n, by omega, he⟩
          · rcases List.mem_cons.mp hrest with rfl | hrest
            · exact ⟨t1, by omega, rfl⟩
            · rcases List.mem_cons.mp hrest with rfl | hB
              · exact ⟨t2 + 1, by omega, rfl⟩
              · rcases hb id (hmemOld id (List.mem_append_right (A ++ M) hB))
                  with ⟨n, hn, he⟩
                exact ⟨n, by omega, he⟩
        · rw [hNew']
          apply nodup_middle_two
          · rw [← hOldFlat]
            exact hnd
          · intro hmem
            rcases hb _ (hmemOld _ hmem) with ⟨n, hn, he⟩
            exact absurd (msgId_inj he.symm) (by omega)
          · intro hmem
            rcases hb _ (hmemOld _ hmem) with ⟨n, hn, he⟩
            exact absurd (msgId_inj he.symm) (by omega)
          · intro heq
            exact absurd (msgId_inj heq) (by omega)
  | updateConfig p =>
    exact h

theorem step_idsShaped {s : ClineCoreState} {op : Op} (h : idsShaped s) :
    idsShaped (step s op) := by
  obtain ⟨hm, ht⟩ := h
  cases op with
  | startNewTask m t =>
    constructor
    · intro id hid
      rw [step_startNewTask_msgIds] at hid
      rcases List.mem_append.mp hid with hold | hnew
      · exact hm id hold
      · by_cases hj : jsStrTruthy m
        · rw [if_pos hj] at hnew
          rcases List.mem_singleton.mp hnew with rfl
          exact ⟨t, rfl⟩
        · rw [if_neg hj] at hnew
          exact absurd hnew (List.not_mem_nil id)
    · intro id hid
      rw [step_startNewTask_taskIds] at hid
      rcases List.mem_append.mp hid with hold | hnew
      · exact ht id hold
      · rcases List.mem_singleton.mp hnew with rfl
        exact ⟨t, rfl⟩
  | sendMessage c img t1 t2 =>
    cases hcur : s.currentTask with
    | none =>
      have hst : step s (.sendMessage c img t1 t2) = s := by
        simp only [step, sendMessage, hcur]
      rw [hst]
      exact ⟨hm, ht⟩
    | some i =>
      cases hget : s.tasks.get? i with
      | none =>
        have hst : step s (.sendMessage c img t1 t2) = s := by
          simp only [step, sendMessage, hcur, hget]
        rw [hst]
        exact ⟨hm, ht⟩
      | some task =>
        rcases flatMapMsgs_set s.tasks i task
            (taskAfterSend task c img t1 t2) hget with ⟨A, B, hOld, hNew⟩
        have hstep : step s (.sendMessage c img t1 t2) =
            { s with tasks :=
                s.tasks.set i (taskAfterSend task c img t1 t2) } := by
          simp only [step, sendMessage, hcur, hget]
        constructor
        · intro id hid
          have hid0 : id ∈ (s.tasks.set i
              (taskAfterSend task c img t1 t2)).flatMap
                (fun t => t.messages.map fun m => m.id) := by
            rw [hstep] at hid
            exact hid
          have hid' : id ∈ A ++
              ((taskAfterSend task c img t1 t2).messages.map fun m => m.id)
                ++ B := by
            rw [← hNew]
            exact hid0
          rw [taskAfterSend_msgIdList] at hid'
          have hmemOld : ∀ x, x ∈ A ++
              (task.messages.map fun m => m.id) ++ B → x ∈ msgIds s := by
            intro x hx
            rw [msgIds, hOld]
            exact hx
          rcases List.mem_append.mp hid' with hleft | hB
          · rcases List.mem_append.mp hleft with hA | hmid
            · exact hm id (hmemOld id (by
                exact List.mem_append_left B (List.mem_append_left _ hA)))
            · rcases List.mem_append.mp hmid with hM | hnew
              · exact hm id (hmemOld id (by
                  exact List.mem_append_left B (List.mem_append_right A hM)))
              · rcases List.mem_cons.mp hnew with rfl | hnew
                · exact ⟨t1, rfl⟩
                · rcases List.mem_cons.mp hnew with rfl | hfalse
                  · exact ⟨t2 + 1, rfl⟩
                  · exact absurd hfalse (List.not_mem_nil id)
          · exact hm id (hmemOld id (List.mem_append_right _ hB))
        · intro id hid
          rw [hstep] at hid
          have hid' : id ∈
              (s.tasks.set i (taskAfterSend task c img t1 t2)).map
                (fun t => t.id) := hid
          rw [List.map_set] at hid'
          rcases List.mem_or_eq_of_mem_set hid' with hold | rfl
          · exact ht id hold
          · have : task.id ∈ taskIds s :=
              List.mem_map_of_mem (fun t => t.id) (List.get?_mem hget)
            have hsame : (taskAfterSend task c img t1 t2).id = task.id := by
              simp [taskAfterSend]
            rw [hsame]
            exact ht task.id this
  | updateConfig p =>
    exact ⟨hm, ht⟩

theorem run_idsShaped (cfg : ClineConfig) (ops : List Op) :
    idsShaped (run cfg ops) := by
  have hstart : idsShaped (initState cfg) := by
    constructor <;> intro id hid <;> simp [msgIds, taskIds, initState] at hid
  rw [run]
  generalize initState cfg = s at hstart ⊢
  induction ops generalizing s with
  | nil => exact hstart
  | cons op rest ih => exact ih (step s op) (step_idsShaped hstart)

theorem run_msgIdsOk (ops : List Op) :
    ∀ (s : ClineCoreState) (lo : Nat), msgIdsOk s lo →
      wellSeparated lo ops → ∃ hi, msgIdsOk (ops.foldl step s) hi := by
  induction ops with
  | nil => intro s lo h _; exact ⟨lo, h⟩
  | cons op rest ih =>
    intro s lo h hws
    exact ih (step s op) (sepNext lo op) (step_msgIdsOk h hws.1) hws.2

theorem step_preserves_position {s : ClineCoreState} (op : Op) (i : Nat)
    (h : i < s.tasks.length) :
    s.tasks.length ≤ (step s op).tasks.length ∧
    ((step s op).tasks.get? i).map (fun t => t.id) =
      (s.tasks.get? i).map (fun t => t.id) ∧
    ((step s op).tasks.get? i).map (fun t => t.createdAt) =
      (s.tasks.get? i).map (fun t => t.createdAt) := by
  cases op with
  | startNewTask m t =>
    have hlen : (step s (.startNewTask m t)).tasks =
        s.tasks ++ [(startNewTask s m t).2] := by
      simp [step, startNewTask]
    rw [hlen, List.get?_append h]
    refine ⟨by simp, rfl, rfl⟩
  | sendMessage c img t1 t2 =>
    cases hcur : s.currentTask with
    | none =>
      have hst : step s (.sendMessage c img t1 t2) = s := by
        simp only [step, sendMessage, hcur]
      rw [hst]
      exact ⟨Nat.le_refl _, rfl, rfl⟩
    | some k =>
      cases hget : s.tasks.get? k with
      | none =>
        have hst : step s (.sendMessage c img t1 t2) = s := by
          simp only [step, sendMessage, hcur, hget]
        rw [hst]
        exact ⟨Nat.le_refl _, rfl, rfl⟩
      | some task =>
        have hst : (step s (.sendMessage c img t1 t2)).tasks =
            s.tasks.set k (taskAfterSend task c img t1 t2) := by
          simp only [step, sendMessage, hcur, hget]
        rw [hst]
        refine ⟨by rw [List.length_set], ?_, ?_⟩
        all_goals
          by_cases hik : k = i
        · subst hik
          have hk : k < s.tasks.length := by
            rcases List.get?_eq_some.mp hget with ⟨hk, _⟩
            exact hk
          rw [List.get?_eq_getElem?, List.get?_eq_getElem?,
            List.getElem?_set_self hk]
          rw [List.get?_eq_getElem?] at hget
          rw [hget]
          simp [taskAfterSend]
        · rw [List.get?_eq_getElem?, List.get?_eq_getElem?,
            List.getElem?_set_ne hik]
        · subst hik
          have hk : k < s.tasks.length := by
            rcases List.get?_eq_some.mp hget with ⟨hk, _⟩
            exact hk
          rw [List.get?_eq_getElem?, List.get?_eq_getElem?,
            List.getElem?_set_self hk]
          rw [List.get?_eq_getElem?] at hget
          rw [hget]
          simp [taskAfterSend]
        · rw [List.get?_eq_getElem?, List.get?_eq_getElem?,
            List.getElem?_set_ne hik]
  | updateConfig p =>
    exact ⟨Nat.le_refl _, rfl, rfl⟩

/-! ## Helper equations for the controller calls -/

theorem sendMessage_ok_eq {s : ClineCoreState} {i : Nat} {task : ClineTask}
    (hcur : s.currentTask = some i) (hget : s.tasks.get? i = some task)
    (c : String) (img : Option (List String)) (t1 t2 : Nat) :
    sendMessage s c img t1 t2 =
      .ok ({ s with tasks := s.tasks.set i (taskAfterSend task c img t1 t2) },
        mkAssistantMessage c t2) := by
  simp only [sendMessage, hcur, hget]

theorem sendMessage_none_eq {s : ClineCoreState} (hcur : s.currentTask = none)
    (c : String) (img : Option (List String)) (t1 t2 : Nat) :
    sendMessage s c img t1 t2 =
      .error (.noActiveTask "No active task. Start a new task first.") := by
  simp only [sendMessage, hcur]

/-! ## Claims -/

/-- C1.  When a current task exists, `sendMessage` appends exactly one
user message (metadata present iff `images` was supplied) followed by
exactly one assistant message to that task, returns the assistant
message, and touches nothing else; concretely, after
`startNewTask("x")` then `sendMessage("y")` the current task holds
exactly the initial user message, the new user message, and the
assistant reply, in that order. -/
theorem claim_C1_sendMessage_appends :
    (∀ (s : ClineCoreState) (i : Nat) (task : ClineTask) (c : String)
        (img : Option (List String)) (t1 t2 : Nat),
      s.currentTask = some i → s.tasks.get? i = some task →
      ∃ (userMsg asstMsg : ClineMessage) (s' : ClineCoreState),
        sendMessage s c img t1 t2 = .ok (s', asstMsg) ∧
        s'.tasks.get? i = some { task with
          messages := task.messages ++ [userMsg, asstMsg]
          updatedAt := t1 } ∧
        userMsg.type = .user ∧ userMsg.content = c ∧
        userMsg.metadata = img.map (fun imgs => { images := imgs }) ∧
        (userMsg.metadata.isSome ↔ img.isSome) ∧
        asstMsg.type = .assistant ∧
        s'.currentTask = s.currentTask ∧
        s'.tasks.length = s.tasks.length) ∧
    ((getCurrentTask (run cfg0
        [.startNewTask (some "x") 0, .sendMessage "y" none 1 2])).map
      (fun t => t.messages.map fun m => (m.type, m.content)) =
      some [(.user, "x"), (.user, "y"),
        (.assistant, assistantReply "y")]) := by
  constructor
  · intro s i task c img t1 t2 hcur hget
    have hk : i < s.tasks.length := by
      rcases List.get?_eq_some.mp hget with ⟨hk, _⟩
      exact hk
    refine ⟨mkUserMessage c img t1, mkAssistantMessage c t2,
      { s with tasks := s.tasks.set i (taskAfterSend task c img t1 t2) },
      sendMessage_ok_eq hcur hget c img t1 t2, ?_, rfl, rfl, rfl,
      by simp [mkUserMessage], rfl, rfl, by simp⟩
    show (s.tasks.set i (taskAfterSend task c img t1 t2)).get? i = _
    rw [List.get?_eq_getElem?, List.getElem?_set_self hk]
    congr 1
    simp [taskAfterSend]
  · decide

/-- C1 witness: the general statement applied to the state reached by
`startNewTask("x")`, with content `"y"`. -/
theorem claim_C1_witness :
    ∃ (userMsg asstMsg : ClineMessage) (s' : ClineCoreState),
      sendMessage (startNewTask (initState cfg0) (some "x") 0).1 "y" none 1 2
        = .ok (s', asstMsg) ∧
      s'.tasks.get? 0 = some
        { (startNewTask (initState cfg0) (some "x") 0).2 with
          messages := (startNewTask (initState cfg0) (some "x") 0).2.messages
            ++ [userMsg, asstMsg]
          updatedAt := 1 } ∧
      userMsg.type = .user ∧ userMsg.content = "y" ∧
      userMsg.metadata = Option.map (fun imgs => { images := imgs }) none ∧
      (userMsg.metadata.isSome ↔ (none : Option (List String)).isSome) ∧
      asstMsg.type = .assistant ∧
      s'.currentTask = (startNewTask (initState cfg0) (some "x") 0).1.currentTask ∧
      s'.tasks.length = (startNewTask (initState cfg0) (some "x") 0).1.tasks.length :=
  claim_C1_sendMessage_appends.1
    (startNewTask (initState cfg0) (some "x") 0).1 0
    (startNewTask (initState cfg0) (some "x") 0).2 "y" none 1 2 rfl rfl

/-- C2.  With no current task, `sendMessage` fails with the
no-active-task error and mutates nothing; before any `startNewTask` the
task list still has length 0. -/
theorem claim_C2_noActiveTask :
    (∀ (s : ClineCoreState) (c : String) (img : Option (List String))
        (t1 t2 : Nat),
      s.currentTask = none →
      sendMessage s c img t1 t2 =
        .error (.noActiveTask "No active task. Start a new task first.") ∧
      step s (.sendMessage c img t1 t2) = s) ∧
    (∀ (cfg : ClineConfig) (c : String) (img : Option (List String))
        (t1 t2 : Nat),
      run cfg [.sendMessage c img t1 t2] = initState cfg ∧
      (run cfg [.sendMessage c img t1 t2]).tasks = [] ∧
      getCurrentTask (run cfg [.sendMessage c img t1 t2]) = none) := by
  constructor
  · intro s c img t1 t2 hcur
    refine ⟨sendMessage_none_eq hcur c img t1 t2, ?_⟩
    simp only [step, sendMessage, hcur]
  · intro cfg c img t1 t2
    exact ⟨rfl, rfl, rfl⟩

/-- C2 witness: calling `sendMessage` on a fresh controller. -/
theorem claim_C2_witness :
    sendMessage (initState cfg0) "hello" none 0 0 =
      .error (.noActiveTask "No active task. Start a new task first.") ∧
    step (initState cfg0) (.sendMessage "hello" none 0 0) = initState cfg0 :=
  (claim_C2_noActiveTask.1 (initState cfg0) "hello" none 0 0 rfl)

/-- C3 counterexample.  The claim predicts title `"a b c d e f"` for the
message `"a  b c d e f"` (six whitespace-separated words, no ellipsis)
and `"a b c d e f…"` (U+2026 ellipsis) for `"a b c d e f g"`; the code
instead splits at every single space (keeping an empty field for the
double space) and appends three ASCII dots. -/
theorem claim_C3_counterexample :
    generateTaskTitle "a  b c d e f" = "a  b c d e..." ∧
    generateTaskTitle "a  b c d e f" ≠ "a b c d e f" ∧
    generateTaskTitle "a b c d e f g" = "a b c d e f..." ∧
    generateTaskTitle "a b c d e f g" ≠ "a b c d e f…" := by
  refine ⟨?_, ?_, ?_, ?_⟩ <;>
    simp only [generateTaskTitle, String.split_of_valid] <;> decide

/-- C3 amended.  The title is built from the fields of splitting the
message at single space characters (consecutive spaces contribute empty
fields) — so for any message assembled by joining space-free words with
single spaces, the title is the first 6 words joined by single spaces,
with `"..."` (three ASCII dots) appended iff there are more than 6
words; the two spec examples hold with `"..."`. -/
theorem claim_C3_amended :
    (∀ ws : List String, (∀ w ∈ ws, ¬ ' ' ∈ w.data) →
      generateTaskTitle (String.intercalate " " ws) =
        String.intercalate " " (ws.take 6) ++
          (if 6 < ws.length then "..." else "")) ∧
    generateTaskTitle "a b c d e f" = "a b c d e f" ∧
    generateTaskTitle "a b c d e f g" = "a b c d e f..." := by
  refine ⟨?_, ?_, ?_⟩
  · intro ws h
    cases ws with
    | nil =>
      simp only [generateTaskTitle, String.split_of_valid]
      decide
    | cons w ws =>
      simp only [generateTaskTitle]
      rw [split_space_intercalate (w :: ws) h (List.cons_ne_nil w ws)]
  · simp only [generateTaskTitle, String.split_of_valid]
    decide
  · simp only [generateTaskTitle, String.split_of_valid]
    decide

/-- C3 witness: the amended rule applied to seven concrete space-free
words. -/
theorem claim_C3_witness :
    generateTaskTitle
        (String.intercalate " " ["a", "b", "c", "d", "e", "f", "g"]) =
      String.intercalate " "
          (["a", "b", "c", "d", "e", "f", "g"].take 6) ++
        (if 6 < (["a", "b", "c", "d", "e", "f", "g"] : List String).length
         then "..." else "") :=
  claim_C3_amended.1 ["a", "b", "c", "d", "e", "f", "g"] (by decide)

/-- C4.  `startNewTask` with a non-empty message yields a task whose
single message carries that content with the user role;
`startNewTask()` with no argument yields no messages and title
`"New Task"`; in both cases the task is active, becomes current, and is
appended to the task list. -/
theorem claim_C4_startNewTask :
    (∀ (s : ClineCoreState) (m : String) (t : Nat), m ≠ "" →
      ((startNewTask s (some m) t).2.messages.map
        fun ms => (ms.type, ms.content)) = [(.user, m)] ∧
      (startNewTask s (some m) t).2.status = .active ∧
      getCurrentTask (startNewTask s (some m) t).1 =
        some (startNewTask s (some m) t).2 ∧
      getTasks (startNewTask s (some m) t).1 =
        getTasks s ++ [(startNewTask s (some m) t).2]) ∧
    (∀ (s : ClineCoreState) (t : Nat),
      (startNewTask s none t).2.messages = [] ∧
      (startNewTask s none t).2.title = "New Task" ∧
      (startNewTask s none t).2.status = .active ∧
      getCurrentTask (startNewTask s none t).1 =
        some (startNewTask s none t).2 ∧
      getTasks (startNewTask s none t).1 =
        getTasks s ++ [(startNewTask s none t).2]) := by
  constructor
  · intro s m t hm
    have hj : jsStrTruthy (some m) = true := by
      simp [jsStrTruthy, hm]
    refine ⟨by simp [startNewTask, hj], by simp [startNewTask, hj], ?_, rfl⟩
    show ((startNewTask s (some m) t).1.tasks).get?
        s.tasks.length = some (startNewTask s (some m) t).2
    have : (startNewTask s (some m) t).1.tasks =
        s.tasks ++ [(startNewTask s (some m) t).2] := rfl
    rw [this, List.get?_concat_length]
  · intro s t
    refine ⟨rfl, rfl, rfl, ?_, rfl⟩
    show ((startNewTask s none t).1.tasks).get?
        s.tasks.length = some (startNewTask s none t).2
    have : (startNewTask s none t).1.tasks =
        s.tasks ++ [(startNewTask s none t).2] := rfl
    rw [this, List.get?_concat_length]

/-- C4 witness: a non-empty and an absent initial message on a fresh
controller. -/
theorem claim_C4_witness :
    (((startNewTask (initState cfg0) (some "hi") 3).2.messages.map
      fun ms => (ms.type, ms.content)) = [(.user, "hi")] ∧
      (startNewTask (initState cfg0) (some "hi") 3).2.status = .active ∧
      getCurrentTask (startNewTask (initState cfg0) (some "hi") 3).1 =
        some (startNewTask (initState cfg0) (some "hi") 3).2 ∧
      getTasks (startNewTask (initState cfg0) (some "hi") 3).1 =
        getTasks (initState cfg0) ++
          [(startNewTask (initState cfg0) (some "hi") 3).2]) :=
  claim_C4_startNewTask.1 (initState cfg0) "hi" 3 (by decide)

/-- C10.  `startNewTask("")` behaves exactly like `startNewTask()` with
no argument: the empty string is falsy, so the same task value is built
— zero messages and title `"New Task"`. -/
theorem claim_C10_empty_string :
    ∀ (s : ClineCoreState) (t : Nat),
      startNewTask s (some "") t = startNewTask s none t ∧
      (startNewTask s (some "") t).2.messages = [] ∧
      (startNewTask s (some "") t).2.title = "New Task" := by
  intro s t
  exact ⟨rfl, rfl, rfl⟩

/-- C5 counterexample.  After `startNewTask("x")` at time 0 and a
`sendMessage("y")` whose user phase runs at time 1 and assistant phase
at time 2, the current task's `updatedAt` is 1 — the time of the user
append — while the appended assistant message carries timestamp 2: the
assistant append did not refresh `updatedAt`. -/
theorem claim_C5_counterexample :
    ((getCurrentTask (run cfg0
        [.startNewTask (some "x") 0, .sendMessage "y" none 1 2])).map
      fun t => t.updatedAt) = some 1 ∧
    ((getCurrentTask (run cfg0
        [.startNewTask (some "x") 0, .sendMessage "y" none 1 2])).map
      fun t => t.messages.getLast?.map fun m => (m.type, m.timestamp)) =
      some (some (.assistant, 2)) ∧
    (1 : Nat) < 2 := by
  refine ⟨by decide, by decide, by decide⟩

/-- C5 amended.  A successful `sendMessage` refreshes `updatedAt`
exactly once, to the clock reading of the user append; the assistant
append leaves it unchanged.  `createdAt` is never changed, and under a
nondecreasing clock every task — in particular the current one —
satisfies `createdAt <= updatedAt`. -/
theorem claim_C5_amended :
    (∀ (s : ClineCoreState) (i : Nat) (task : ClineTask) (c : String)
        (img : Option (List String)) (t1 t2 : Nat),
      s.currentTask = some i → s.tasks.get? i = some task →
      sendMessage s c img t1 t2 =
        .ok ({ s with tasks :=
            s.tasks.set i (taskAfterSend task c img t1 t2) },
          mkAssistantMessage c t2) ∧
      (taskAfterSend task c img t1 t2).updatedAt = t1 ∧
      (taskAfterSend task c img t1 t2).createdAt = task.createdAt) ∧
    (∀ (cfg : ClineConfig) (ops : List Op), wellTimed 0 ops →
      ∀ task ∈ (run cfg ops).tasks, task.createdAt ≤ task.updatedAt) ∧
    (∀ (cfg : ClineConfig) (ops : List Op) (task : ClineTask),
      wellTimed 0 ops → getCurrentTask (run cfg ops) = some task →
      task.createdAt ≤ task.updatedAt) := by
  have hrun : ∀ (cfg : ClineConfig) (ops : List Op), wellTimed 0 ops →
      ∀ task ∈ (run cfg ops).tasks, task.createdAt ≤ task.updatedAt := by
    intro cfg ops hwt task hmem
    have hinit : timesBounded (initState cfg) 0 := by
      intro tk htk
      simp [initState] at htk
    rcases run_timesBounded ops (initState cfg) 0 hinit hwt with ⟨hi, hb⟩
    exact (hb task hmem).1
  refine ⟨?_, hrun, ?_⟩
  · intro s i task c img t1 t2 hcur hget
    exact ⟨sendMessage_ok_eq hcur hget c img t1 t2, rfl, rfl⟩
  · intro cfg ops task hwt hcur
    rcases hmatch : (run cfg ops).currentTask with _ | i
    · rw [getCurrentTask, hmatch] at hcur
      exact absurd hcur (by simp)
    · rw [getCurrentTask, hmatch] at hcur
      exact hrun cfg ops hwt task (List.get?_mem hcur)

/-- C5 witness: the per-call statement on the state after
`startNewTask("x")`, and the invariant on that concrete well-timed
trace. -/
theorem claim_C5_witness :
    (sendMessage (startNewTask (initState cfg0) (some "x") 0).1 "y" none 1 2 =
      .ok ({ (startNewTask (initState cfg0) (some "x") 0).1 with tasks :=
          ((startNewTask (initState cfg0) (some "x") 0).1.tasks.set 0
            (taskAfterSend (startNewTask (initState cfg0) (some "x") 0).2
              "y" none 1 2)) },
        mkAssistantMessage "y" 2) ∧
      (taskAfterSend (startNewTask (initState cfg0) (some "x") 0).2
        "y" none 1 2).updatedAt = 1 ∧
      (taskAfterSend (startNewTask (initState cfg0) (some "x") 0).2
        "y" none 1 2).createdAt =
        (startNewTask (initState cfg0) (some "x") 0).2.createdAt) ∧
    (∀ task ∈ (run cfg0
        [.startNewTask (some "x") 0, .sendMessage "y" none 1 2]).tasks,
      task.createdAt ≤ task.updatedAt) :=
  ⟨claim_C5_amended.1 (startNewTask (initState cfg0) (some "x") 0).1 0
      (startNewTask (initState cfg0) (some "x") 0).2 "y" none 1 2 rfl rfl,
    claim_C5_amended.2.1 cfg0
      [.startNewTask (some "x") 0, .sendMessage "y" none 1 2]
      ⟨Nat.zero_le 0, ⟨Nat.le_succ 0, Nat.le_succ 1⟩, trivial⟩⟩

/-- C6.  The task list is append-only: `startNewTask` appends the new
task and grows `getTasks()` by exactly one; no operation removes or
reorders a prior task (the task at each existing position keeps its id
and creation time, and the list never shrinks); after a second
`startNewTask`, the first task is still listed while `getCurrentTask()`
returns the second. -/
theorem claim_C6_append_only :
    (∀ (s : ClineCoreState) (m : Option String) (t : Nat),
      getTasks (startNewTask s m t).1 =
        getTasks s ++ [(startNewTask s m t).2] ∧
      (getTasks (startNewTask s m t).1).length = (getTasks s).length + 1) ∧
    (∀ (s : ClineCoreState) (op : Op) (i : Nat),
      i < (getTasks s).length →
      (getTasks s).length ≤ (getTasks (step s op)).length ∧
      ((getTasks (step s op)).get? i).map (fun tk => tk.id) =
        ((getTasks s).get? i).map (fun tk => tk.id) ∧
      ((getTasks (step s op)).get? i).map (fun tk => tk.createdAt) =
        ((getTasks s).get? i).map (fun tk => tk.createdAt)) ∧
    (∀ (cfg : ClineConfig) (ta tb : Nat),
      (startNewTask (initState cfg) (some "a") ta).2.id ∈
        (getTasks (startNewTask
          (startNewTask (initState cfg) (some "a") ta).1 (some "b") tb).1).map
          (fun tk => tk.id) ∧
      getCurrentTask (startNewTask
          (startNewTask (initState cfg) (some "a") ta).1 (some "b") tb).1 =
        some (startNewTask
          (startNewTask (initState cfg) (some "a") ta).1 (some "b") tb).2) := by
  refine ⟨?_, ?_, ?_⟩
  · intro s m t
    exact ⟨rfl, by simp [getTasks, startNewTask]⟩
  · intro s op i h
    exact step_preserves_position op i h
  · intro cfg ta tb
    constructor
    · show (startNewTask (initState cfg) (some "a") ta).2.id ∈
        (((initState cfg).tasks ++
            [(startNewTask (initState cfg) (some "a") ta).2]) ++
          [(startNewTask
            (startNewTask (initState cfg) (some "a") ta).1 (some "b") tb).2]).map
          (fun tk => tk.id)
      simp
    · rfl

/-- C6 witness: preservation instantiated on a fresh one-task controller
and a `sendMessage` step. -/
theorem claim_C6_witness :
    (getTasks (startNewTask (initState cfg0) (some "a") 0).1).length ≤
      (getTasks (step (startNewTask (initState cfg0) (some "a") 0).1
        (.sendMessage "y" none 1 2))).length ∧
    ((getTasks (step (startNewTask (initState cfg0) (some "a") 0).1
        (.sendMessage "y" none 1 2))).get? 0).map (fun tk => tk.id) =
      ((getTasks (startNewTask (initState cfg0) (some "a") 0).1).get? 0).map
        (fun tk => tk.id) ∧
    ((getTasks (step (startNewTask (initState cfg0) (some "a") 0).1
        (.sendMessage "y" none 1 2))).get? 0).map (fun tk => tk.createdAt) =
      ((getTasks (startNewTask (initState cfg0) (some "a") 0).1).get? 0).map
        (fun tk => tk.createdAt) :=
  claim_C6_append_only.2.1 (startNewTask (initState cfg0) (some "a") 0).1
    (.sendMessage "y" none 1 2) 0 (by decide)

/-- C7 counterexample.  With the required context absent, each adapter
operation completes normally — it returns the unchanged controller
state together with the missing-context error it caught and logged to
the console — instead of failing to its caller; and even a controller
error (`NoActiveTaskError` raised by `sendMessage` inside
`analyzeCurrentNotebook`) is caught and logged the same way, so errors
in these operations are swallowed, not propagated. -/
theorem claim_C7_counterexample :
    analyzeCurrentNotebook (initState cfg0) ⟨none⟩ 0 0 =
      (initState cfg0, some (.missingContext "No active notebook found")) ∧
    explainSelectedCell (initState cfg0) ⟨none⟩ 0 0 =
      (initState cfg0, some (.missingContext "No cell selected")) ∧
    optimizeSelectedCode (initState cfg0) ⟨none⟩ 0 0 =
      (initState cfg0, some (.missingContext "No code selected")) ∧
    analyzeCurrentNotebook (initState cfg0) ⟨some ⟨none⟩⟩ 0 0 =
      (initState cfg0, some (.fromController
        (.noActiveTask "No active task. Start a new task first."))) := by
  refine ⟨rfl, rfl, rfl, rfl⟩

/-- C7 amended.  Each of the three adapter operations raises a
missing-context error internally when its context is absent and never
reaches the Controller in that case; but every error arising in these
operations — missing context or a controller failure — is caught by the
operation's own catch block and only logged, so the operation always
completes normally and no error is propagated to the caller; on success
the transformed text is forwarded into `sendMessage`. -/
theorem claim_C7_amended :
    (∀ (s : ClineCoreState) (env : AdapterEnv) (t1 t2 : Nat),
      (getCurrentNotebook env = none →
        analyzeCurrentNotebook s env t1 t2 =
          (s, some (.missingContext "No active notebook found"))) ∧
      (getSelectedCell env = none →
        explainSelectedCell s env t1 t2 =
          (s, some (.missingContext "No cell selected"))) ∧
      (getSelectedCode env = none →
        optimizeSelectedCode s env t1 t2 =
          (s, some (.missingContext "No code selected")))) ∧
    (∀ (s : ClineCoreState) (env : AdapterEnv) (t1 t2 : Nat)
        (nb : AdapterNotebook),
      getCurrentNotebook env = some nb → s.currentTask = none →
      analyzeCurrentNotebook s env t1 t2 =
        (s, some (.fromController
          (.noActiveTask "No active task. Start a new task first.")))) ∧
    (∀ (s : ClineCoreState) (env : AdapterEnv) (t1 t2 : Nat)
        (nb : AdapterNotebook) (i : Nat) (task : ClineTask),
      getCurrentNotebook env = some nb → s.currentTask = some i →
      s.tasks.get? i = some task →
      analyzeCurrentNotebook s env t1 t2 =
        ({ s with tasks := (s.tasks.set i (taskAfterSend task
            ("I've analyzed your notebook. Here's what I found:\n\n" ++
              analyzeNotebookStructure nb) none t1 t2)) }, none)) := by
  refine ⟨?_, ?_, ?_⟩
  · intro s env t1 t2
    refine ⟨?_, ?_, ?_⟩
    · intro h
      simp only [analyzeCurrentNotebook, h]
    · intro h
      simp only [explainSelectedCell, h]
    · intro h
      simp only [optimizeSelectedCode, h]
  · intro s env t1 t2 nb hnb hcur
    simp only [analyzeCurrentNotebook, hnb,
      sendMessage_none_eq hcur _ none t1 t2]
  · intro s env t1 t2 nb i task hnb hcur hget
    simp only [analyzeCurrentNotebook, hnb,
      sendMessage_ok_eq hcur hget _ none t1 t2]

/-- C7 witness: the three context-absent cases on an empty environment,
and the success case on a one-task controller. -/
theorem claim_C7_witness :
    (analyzeCurrentNotebook (initState cfg0) ⟨none⟩ 1 2 =
      (initState cfg0, some (.missingContext "No active notebook found"))) ∧
    (analyzeCurrentNotebook (startNewTask (initState cfg0) (some "x") 0).1
        ⟨some ⟨none⟩⟩ 1 2 =
      ({ (startNewTask (initState cfg0) (some "x") 0).1 with tasks :=
          (((startNewTask (initState cfg0) (some "x") 0).1.tasks).set 0
            (taskAfterSend (startNewTask (initState cfg0) (some "x") 0).2
              ("I've analyzed your notebook. Here's what I found:\n\n" ++
                analyzeNotebookStructure ⟨none⟩) none 1 2)) }, none)) :=
  ⟨(claim_C7_amended.1 (initState cfg0) ⟨none⟩ 1 2).1 rfl,
    claim_C7_amended.2.2 (startNewTask (initState cfg0) (some "x") 0).1
      ⟨some ⟨none⟩⟩ 1 2 ⟨none⟩ 0
      (startNewTask (initState cfg0) (some "x") 0).2 rfl rfl rfl⟩

/-- C8 counterexample.  Two controller calls within the same millisecond
produce colliding message ids: after `startNewTask("x")` at time 0 and
`sendMessage("y")` also at time 0, the initial user message and the new
user message both have id `"msg-0"`, so the message ids are not pairwise
distinct. -/
theorem claim_C8_counterexample :
    msgIds (run cfg0 [.startNewTask (some "x") 0,
      .sendMessage "y" none 0 0]) = ["msg-0", "msg-0", "msg-1"] ∧
    ¬ (msgIds (run cfg0 [.startNewTask (some "x") 0,
      .sendMessage "y" none 0 0])).Nodup := by
  refine ⟨by decide, by decide⟩

/-- C8 amended.  Task ids never collide with message ids (they use
distinct `task-`/`msg-` templates); and the message ids are pairwise
distinct provided successive clock readings grow by at least 2 — the
slack needed because the assistant id splices `Date.now() + 1`. -/
theorem claim_C8_amended :
    (∀ (cfg : ClineConfig) (ops : List Op),
      ∀ tid ∈ taskIds (run cfg ops), ∀ mid ∈ msgIds (run cfg ops),
        tid ≠ mid) ∧
    (∀ (cfg : ClineConfig) (ops : List Op), wellSeparated 0 ops →
      (msgIds (run cfg ops)).Nodup) := by
  constructor
  · intro cfg ops tid htid mid hmid
    rcases run_idsShaped cfg ops with ⟨hm, ht⟩
    rcases ht tid htid with ⟨a, rfl⟩
    rcases hm mid hmid with ⟨b, rfl⟩
    exact taskId_ne_msgId a b
  · intro cfg ops hws
    have hinit : msgIdsOk (initState cfg) 0 := by
      constructor
      · intro id hid
        simp [msgIds, initState] at hid
      · simp [msgIds, initState]
    rcases run_msgIdsOk ops (initState cfg) 0 hinit hws with ⟨hi, hb⟩
    exact hb.2

/-- C8 witness: a well-separated concrete trace (readings 0, 2, 4) whose
message ids are pairwise distinct, applied through the amended
theorem. -/
theorem claim_C8_witness :
    (msgIds (run cfg0 [.startNewTask (some "x") 0,
      .sendMessage "y" none 2 4])).Nodup :=
  claim_C8_amended.2 cfg0
    [.startNewTask (some "x") 0, .sendMessage "y" none 2 4]
    ⟨Nat.zero_le 0, ⟨Nat.le_refl 2, Nat.le_refl 4⟩, trivial⟩

/-- C9 counterexample.  In a notebook whose first code cell declares
language `"python"` (the first override encountered) and whose second
declares `"javascript"`, `getActiveDocument` reports `"javascript"`:
a later cell's override changed the result even though an earlier cell
had declared one, contradicting first-override-wins. -/
theorem claim_C9_counterexample :
    getActiveDocument (some ⟨.notebook
        [⟨.code, "x = 1", some "python"⟩,
          ⟨.code, "y = 2", some "javascript"⟩],
      some "nb.ipynb"⟩) =
      some ⟨"nb.ipynb", "# Cell 1\nx = 1\n\n# Cell 2\ny = 2\n\n",
        "javascript"⟩ ∧
    ("javascript" : String) ≠ "python" := by
  refine ⟨by decide, by decide⟩

/-- C9 amended.  With no focused widget the result is absent.  For a
focused notebook, `content` concatenates the code-bearing cells in
display order, each prefixed with its `# Cell <i+1>` marker, and
`language` is the first declared cell language *different from* the
`"python"` default — a declaration equal to the default (or empty) does
not stop the scan, so a later cell's override can still take effect;
with no such declaration the default stands. -/
theorem claim_C9_amended :
    getActiveDocument none = none ∧
    (∀ (cells : List HostCell) (p : Option String),
      getActiveDocument (some ⟨.notebook cells, p⟩) =
        some { path := jsPathOr p "untitled.ipynb"
               content := String.join (((cells.enum).filter
                  fun q => q.2.kind == .code).map fun q => cellBlock q.1 q.2)
               language := ((declaredCellLanguages cells).find?
                  fun l => l != "python").getD "python" }) := by
  constructor
  · rfl
  · intro cells p
    show some _ = some _
    congr 1
    have hcontent := notebookFold_content cells 0 "" "python"
    have hlang := notebookFold_language cells 0 ""
    have hjoin : ("" : String) ++ String.join (((List.enumFrom 0 cells).filter
        fun q => q.2.kind == .code).map fun q => cellBlock q.1 q.2) =
        String.join (((List.enumFrom 0 cells).filter
          fun q => q.2.kind == .code).map fun q => cellBlock q.1 q.2) := by
      simp
    refine congrArg₂ (fun c l => ActiveDocument.mk
      (jsPathOr p "untitled.ipynb") c l) ?_ ?_
    · rw [show List.enum cells = List.enumFrom 0 cells from rfl]
      rw [← hjoin, ← hcontent]
    · rw [← hlang]
